import Mathlib

/-
Verification development for the voice-mode orchestration core of the
jarvis-and-baymax repository. The TypeScript sources are shallowly embedded:
React hook state becomes explicit record state, every await point of an async
handler becomes a separate event whose continuation is a pure state
transformer, and browser callbacks (speech recognition results, utterance
end/error events, timers) become event constructors. All definitions are
executable so concrete runs can be evaluated inside proofs.
-/

set_option maxRecDepth 4000

/-- Substring containment on character lists: pat occurs contiguously in the
second argument. Embeds the JavaScript String.prototype.includes test. -/
def listIncludes (pat : List Char) : List Char → Bool
  | [] => pat.isEmpty
  | c :: rest => pat.isPrefixOf (c :: rest) || listIncludes pat rest

/-- hay.includes(pat) from JavaScript. -/
def strIncludes (hay pat : String) : Bool :=
  listIncludes pat.data hay.data

/-- The whitespace characters relevant to the transcripts and utterances of
this program (JavaScript trim also strips rarer unicode spaces). -/
def isJsSpace (c : Char) : Bool :=
  c = ' ' || c = '\t' || c = '\n' || c = '\r'

/-- Strip leading and trailing whitespace from a character list. -/
def trimChars (l : List Char) : List Char :=
  ((l.dropWhile isJsSpace).reverse.dropWhile isJsSpace).reverse

/-- text.trim() from JavaScript, kept kernel-reducible by working on the
character list. -/
def jsTrim (s : String) : String :=
  String.mk (trimChars s.data)

/-- text.toLowerCase() from JavaScript, kernel-reducible. -/
def jsToLower (s : String) : String :=
  String.mk (s.data.map Char.toLower)

/-- s.startsWith(pat) from JavaScript, kernel-reducible. -/
def jsStartsWith (s pat : String) : Bool :=
  pat.data.isPrefixOf s.data

/- == useTextToSpeech.ts ======================================================
The speak function returns a promise; its settlement is decided by the
utterance events. utterance.onend resolves; utterance.onerror rejects exactly
when the error code is neither interrupted nor canceled (lines 111-130). -/

/-- How the promise returned by speak settles. -/
inductive SpeakSettle where
  | resolved : SpeakSettle
  | rejected : String → SpeakSettle
deriving DecidableEq, Repr

/-- Terminal utterance event delivered by the speech-synthesis engine. -/
inductive UtteranceEnd where
  | ended : UtteranceEnd
  | errorEvent : String → UtteranceEnd
deriving DecidableEq, Repr

/-- Settlement of the speak promise on a terminal utterance event, embedding
the onend and onerror handlers of useTextToSpeech.speak. -/
def speakSettle : UtteranceEnd → SpeakSettle
  | .ended => .resolved
  | .errorEvent code =>
      if code != "interrupted" && code != "canceled" then .rejected code else .resolved

/-- State of the useTextToSpeech hook that the synchronous prefix of speak can
touch: the isSpeaking React state, the speakingRef ref, how often the engine
cancel was issued, and the utterances handed to the engine. -/
structure TtsState where
  isSpeaking : Bool
  speakingRef : Bool
  cancelCalls : Nat
  queued : List String
deriving DecidableEq, Repr

/-- What the synchronous prefix of speak decides before any utterance event. -/
inductive SpeakEntry where
  | rejectedUnsupported : SpeakEntry
  | resolvedEmptyText : SpeakEntry
  | utteranceScheduled : SpeakEntry
deriving DecidableEq, Repr

/-- Synchronous prefix of useTextToSpeech.speak (lines 49-70): reject when the
engine is unsupported; resolve at once on empty or whitespace-only text without
touching the engine; otherwise cancel ongoing speech, clear speakingRef and
schedule the utterance. -/
def speakEntry (isSupported : Bool) (text : String) (st : TtsState) :
    SpeakEntry × TtsState :=
  if !isSupported then (.rejectedUnsupported, st)
  else if text == "" || jsTrim text == "" then (.resolvedEmptyText, st)
  else (.utteranceScheduled,
    { st with
      cancelCalls := st.cancelCalls + 1
      speakingRef := false
      queued := st.queued ++ [text] })

/-- An entry of the speechSynthesis voice list. -/
structure SynthVoice where
  name : String
  lang : String
  localService : Bool
deriving DecidableEq, Repr

/-- First preference tier of speak (lines 86-90): the explicitly named
high-quality engine voices. -/
def isPreferredName (v : SynthVoice) : Bool :=
  strIncludes v.name "Google US English" || strIncludes v.name "Google UK English" ||
  strIncludes v.name "Samantha" || strIncludes v.name "Alex"

/-- Second tier (lines 91-92): an English-locale voice served on-device. -/
def isEnglishLocal (v : SynthVoice) : Bool :=
  jsStartsWith v.lang "en" && v.localService

/-- Third tier (lines 93-94): any English-locale voice. -/
def isEnglish (v : SynthVoice) : Bool :=
  jsStartsWith v.lang "en"

/-- Voice selection of speak (lines 86-95): the JavaScript or-chain of find
calls falling back to voices[0]; none when the list is empty. -/
def choosePreferredVoice (voices : List SynthVoice) : Option SynthVoice :=
  match voices.find? isPreferredName with
  | some v => some v
  | none =>
    match voices.find? isEnglishLocal with
    | some v => some v
    | none =>
      match voices.find? isEnglish with
      | some v => some v
      | none => voices.head?

/-- Modelled from the spec for the refinement statement of the voice-selection
claim: v is the first element of the list satisfying p. -/
def FirstSuch {α : Type} (p : α → Bool) (l : List α) (v : α) : Prop :=
  ∃ l1 l2, l = l1 ++ v :: l2 ∧ p v = true ∧ ∀ x ∈ l1, p x = false

/-- Modelled from the spec for the refinement statement of the voice-selection
claim: the stated preference order over a voice list. -/
def SpecVoicePreference (voices : List SynthVoice) (v : SynthVoice) : Prop :=
  FirstSuch isPreferredName voices v ∨
  ((∀ x ∈ voices, isPreferredName x = false) ∧ FirstSuch isEnglishLocal voices v) ∨
  ((∀ x ∈ voices, isPreferredName x = false) ∧ (∀ x ∈ voices, isEnglishLocal x = false) ∧
    FirstSuch isEnglish voices v) ∨
  ((∀ x ∈ voices, isPreferredName x = false) ∧ (∀ x ∈ voices, isEnglishLocal x = false) ∧
    (∀ x ∈ voices, isEnglish x = false) ∧ voices.head? = some v)

/- == useVoiceRecognition.ts ==================================================
The recognition.onresult handler (lines 95-119) receives a batch of results,
splits them into final and interim text, publishes the current transcript and
checks the configured wake words against its lower-cased form, invoking the
wake callback on the first match of the batch. -/

/-- One entry of a SpeechRecognition result batch. -/
structure RecResult where
  isFinal : Bool
  transcript : String
deriving DecidableEq, Repr

/-- The transcript the onresult handler publishes for one result batch: the
concatenated final results when any exist, else the concatenated interim
results (the JavaScript finalTranscript or-else interimTranscript). -/
def onresultTranscript (rs : List RecResult) : String :=
  let finalT := String.join ((rs.filter (fun r => r.isFinal)).map (fun r => r.transcript))
  let interimT := String.join ((rs.filter (fun r => !r.isFinal)).map (fun r => r.transcript))
  if finalT == "" then interimT else finalT

/-- Whether the onresult handler invokes the onWakeWord callback for one
result batch: some configured wake word is contained, case-insensitively, in
the published transcript. The loop breaks after the first matching word, so
the callback fires at most once per batch. -/
def onresultFiresWake (wakeWords : List String) (rs : List RecResult) : Bool :=
  let lower := jsToLower (onresultTranscript rs)
  wakeWords.any (fun w => strIncludes lower (jsToLower w))

/-- Number of onWakeWord invocations over the result batches of one capture
session (one utterance): nothing in the handler latches across batches. -/
def utteranceWakeFireCount (wakeWords : List String) (batches : List (List RecResult)) : Nat :=
  batches.foldl (fun n rs => if onresultFiresWake wakeWords rs then n + 1 else n) 0

/-- The wake-word list VoiceMode passes to useVoiceRecognition (lines 147-151). -/
def voiceModeWakeWords : List String :=
  ["hey jarvis", "hi jarvis", "jarvis",
   "wake up buddy", "wake up max", "wakeup buddy", "wakeup max",
   "hey buddy", "hey max", "hi buddy", "hi max"]

/- == useBackgroundWakeWord.ts ================================================
handleWakeWordDetected (lines 32-58) debounces by wall-clock time: a detection
within WAKE_DEBOUNCE_MS of the last accepted detection returns before the
notification is scheduled and before the onWakeWord callback runs. -/

/-- Debounce window of useBackgroundWakeWord (line 30). -/
def WAKE_DEBOUNCE_MS : Nat := 3000

/-- State of the background wake-word hook: the lastWakeTime React state. -/
structure WakeWordState where
  lastWakeTime : Nat
deriving DecidableEq, Repr

/-- Observable effects of one handleWakeWordDetected call. -/
structure WakeOutcome where
  accepted : Bool
  notificationScheduled : Bool
  callbackInvoked : Bool
deriving DecidableEq, Repr

/-- handleWakeWordDetected at wall-clock time now: return early when within
the debounce window of the last accepted detection, otherwise record the time,
schedule the foreground notification on native platforms and invoke the wake
callback. -/
def handleWakeWordDetected (isNative : Bool) (now : Nat) (st : WakeWordState) :
    WakeOutcome × WakeWordState :=
  if now - st.lastWakeTime < WAKE_DEBOUNCE_MS then
    ({ accepted := false, notificationScheduled := false, callbackInvoked := false }, st)
  else
    ({ accepted := true, notificationScheduled := isNative, callbackInvoked := true },
     { lastWakeTime := now })

/-- The accepted detection times when a sequence of detections is fed through
handleWakeWordDetected from a given state. -/
def wakeAcceptedTimesAux (st : WakeWordState) : List Nat → List Nat
  | [] => []
  | t :: rest =>
    let r := handleWakeWordDetected false t st
    if r.1.accepted then t :: wakeAcceptedTimesAux r.2 rest
    else wakeAcceptedTimesAux r.2 rest

/-- Accepted detection times from the initial hook state (lastWakeTime 0). -/
def wakeAcceptedTimes (times : List Nat) : List Nat :=
  wakeAcceptedTimesAux { lastWakeTime := 0 } times

/- == useLocalConversationHistory.ts ==========================================
getMessagesForContext (lines 114-119) is messages.slice(-count) followed by a
projection to role and content. -/

/-- A stored conversation message. -/
structure StoredMessage where
  role : String
  content : String
  timestamp : Nat
deriving DecidableEq, Repr

/-- A message as handed to the responder context. -/
structure ContextMessage where
  role : String
  content : String
deriving DecidableEq, Repr

/-- JavaScript arr.slice(-count): the last count elements, except that a count
of zero is slice(0), the whole array. -/
def jsSliceLast {α : Type} (l : List α) (count : Nat) : List α :=
  if count = 0 then l else l.drop (l.length - count)

/-- The projection getMessagesForContext applies to each stored message. -/
def toContextMessage (m : StoredMessage) : ContextMessage :=
  { role := m.role, content := m.content }

/-- getMessagesForContext: slice(-count) of the stored messages, each projected
to role and content. -/
def getMessagesForContext (messages : List StoredMessage) (count : Nat) :
    List ContextMessage :=
  (jsSliceLast messages count).map toContextMessage

/- == VoiceMode.tsx ===========================================================
The orchestrator. voiceState is the single phase value (type VoiceState at
lines 13-14); processingRef guards handleVoiceResult re-entry; the async
handlers are embedded as one state transformer per segment between await
points, delivered as events. The in-flight responder promise survives
stopEverything: nothing aborts it, so its continuation still runs when it
settles (handleVoiceResult lines 111-135 perform no staleness check). -/

/-- The phase values of VoiceMode: FaceState plus the permissions screen
(lines 13-14). The permissions value stands for the AwaitingPermission phase
of the specification. -/
inductive VoiceState where
  | idle : VoiceState
  | permissions : VoiceState
  | listening : VoiceState
  | thinking : VoiceState
  | speaking : VoiceState
  | error : VoiceState
deriving DecidableEq, Repr

/-- A conversation message as VoiceMode appends it. -/
structure Msg where
  role : String
  content : String
deriving DecidableEq, Repr

/-- The fixed fallback utterance of handleVoiceResult (line 130); the
apostrophe is built explicitly as character 39. -/
def fallbackResponse : String :=
  "I had a small hiccup, but I" ++ String.singleton (Char.ofNat 39) ++ "m here! Try again?"

/-- Orchestrator state: voiceState, the mute preference, TTS support, the
processingRef guard, the last shown response, the transcript of the in-flight
responder call when one is pending, whether an awaited speak call has not yet
run its finally block, the isSpeaking flag of the TTS hook, the count of
engine cancel calls, the log of utterances handed to the engine, and the
stored conversation. -/
structure OrchState where
  voiceState : VoiceState
  isMuted : Bool
  ttsSupported : Bool
  processing : Bool
  lastResponse : String
  pending : Option String
  activePlayback : Bool
  isSpeaking : Bool
  ttsCancels : Nat
  spokenQueue : List String
  history : List Msg
deriving DecidableEq, Repr

/-- Initial state: idle, unmuted, speech synthesis supported. -/
def initState : OrchState :=
  { voiceState := .idle, isMuted := false, ttsSupported := true, processing := false,
    lastResponse := "", pending := none, activePlayback := false, isSpeaking := false,
    ttsCancels := 0, spokenQueue := [], history := [] }

/-- useTextToSpeech.stop (lines 149-157): cancel the engine and clear the
speaking flag. -/
def stopSpeaking (st : OrchState) : OrchState :=
  { st with isSpeaking := false, ttsCancels := st.ttsCancels + 1 }

/-- stopEverything (lines 65-70): stop speech, clear the processing guard and
force the phase to idle. The in-flight responder promise is not aborted. -/
def stopEverything (st : OrchState) : OrchState :=
  { (stopSpeaking st) with processing := false, voiceState := .idle }

/-- speakResponse (lines 72-87) up to its await: with empty text, mute on or
no TTS support the phase goes straight to idle; otherwise the phase becomes
speaking and the text is handed to speak, which first cancels ongoing speech.
The finally block that returns the phase to idle runs when the awaited speak
promise settles (event playbackSettled). -/
def speakResponse (text : String) (st : OrchState) : OrchState :=
  if text == "" || st.isMuted || !st.ttsSupported then { st with voiceState := .idle }
  else
    { st with
      voiceState := .speaking
      ttsCancels := st.ttsCancels + 1
      spokenQueue := st.spokenQueue ++ [text]
      activePlayback := true }

/-- handleVoiceResult (lines 89-99) up to its first await: ignore blank
transcripts and re-entry, otherwise set the processing guard, enter the
thinking phase, clear the shown response, store the user message and leave the
responder call in flight. -/
def handleVoiceResultStart (transcript : String) (st : OrchState) : OrchState :=
  if jsTrim transcript == "" || st.processing then st
  else
    { st with
      processing := true
      voiceState := .thinking
      lastResponse := ""
      history := st.history ++ [{ role := "user", content := transcript }]
      pending := some transcript }

/-- How the awaited responder work of handleVoiceResult settles: a handled
phone action (lines 103-109), a conversational reply (lines 113-125), or a
rejection (lines 127-135). -/
inductive ResponderOutcome where
  | handled : String → ResponderOutcome
  | reply : String → ResponderOutcome
  | failed : ResponderOutcome
deriving DecidableEq, Repr

/-- Continuation of handleVoiceResult after its awaited responder work
settles. It runs whenever the promise settles — nothing rechecks the
processing guard or the phase — shows and stores the response (the fixed
fallback on rejection), clears the processing guard and calls speakResponse. -/
def responderContinuation (outcome : ResponderOutcome) (st : OrchState) : OrchState :=
  match st.pending with
  | none => st
  | some _ =>
    let st1 := { st with pending := none }
    match outcome with
    | .handled r =>
        speakResponse r
          { st1 with
            lastResponse := r
            processing := false
            history := st1.history ++ [{ role := "assistant", content := r }] }
    | .reply r =>
        speakResponse r
          { st1 with
            lastResponse := r
            processing := false
            history := st1.history ++ [{ role := "assistant", content := r }] }
    | .failed =>
        speakResponse fallbackResponse
          { st1 with
            lastResponse := fallbackResponse
            processing := false
            history := st1.history ++ [{ role := "assistant", content := fallbackResponse }] }

/-- The finally block of speakResponse once the awaited speak promise settles:
the utterance is over and the phase is set to idle. -/
def playbackFinally (st : OrchState) : OrchState :=
  if st.activePlayback then
    { st with activePlayback := false, isSpeaking := false, voiceState := .idle }
  else st

/-- startVoiceInteraction (lines 186-201) on the granted-and-supported path:
stopEverything, reset the transcript, start capture and enter listening. -/
def startVoiceInteraction (st : OrchState) : OrchState :=
  { (stopEverything st) with voiceState := .listening }

/-- handleFaceClick (lines 203-215): dispatch on the current phase. In the
listening phase it stops capture; the finalized transcript then arrives as its
own event. -/
def handleFaceClick (st : OrchState) : OrchState :=
  match st.voiceState with
  | .permissions => st
  | .idle => startVoiceInteraction st
  | .listening => st
  | .speaking => stopEverything st
  | .thinking => stopEverything st
  | .error => st

/-- handleMuteToggle (lines 217-225): flip the mute preference; only when the
TTS hook reports an utterance in progress does it also stop speech and force
the phase to idle. -/
def handleMuteToggle (st : OrchState) : OrchState :=
  let st1 := { st with isMuted := !st.isMuted }
  if st1.isSpeaking then { (stopSpeaking st1) with voiceState := .idle }
  else st1

/-- Events of the orchestrator: user taps, permission effects, the wake-word
trigger, a finalized capture transcript, settlement of the in-flight responder
work, the engine reporting the utterance started, settlement of the awaited
speak promise, and the mute toggle. -/
inductive Event where
  | faceClick : Event
  | permissionLost : Event
  | permissionGranted : Event
  | wakeWordTrigger : Event
  | captureFinal : String → Event
  | responderDone : ResponderOutcome → Event
  | utteranceStarted : Event
  | playbackSettled : Event
  | muteToggle : Event
deriving DecidableEq, Repr

/-- One orchestrator step per delivered event, each an embedding of the
handler the event reaches: the permission useEffect (lines 44-50), onWakeWord
(lines 152-158, guarded on the idle phase), the transcript useEffect
(lines 179-184, guarded on the listening phase), utterance.onstart, and the
handlers above. -/
def step (st : OrchState) : Event → OrchState
  | .faceClick => handleFaceClick st
  | .permissionLost => { st with voiceState := .permissions }
  | .permissionGranted =>
      if st.voiceState == .permissions then { st with voiceState := .idle } else st
  | .wakeWordTrigger =>
      if st.voiceState == .idle then startVoiceInteraction st else st
  | .captureFinal t =>
      if st.voiceState == .listening then handleVoiceResultStart t st else st
  | .responderDone outcome => responderContinuation outcome st
  | .utteranceStarted =>
      if st.activePlayback then { st with isSpeaking := true } else st
  | .playbackSettled => playbackFinally st
  | .muteToggle => handleMuteToggle st

/-- Run a sequence of events from a state. -/
def runFrom (st : OrchState) (evs : List Event) : OrchState :=
  evs.foldl step st

/-- Run a sequence of events from the initial state. -/
def runEvents (evs : List Event) : OrchState :=
  runFrom initState evs

/-- The phase observed after each event of a run. -/
def phaseTrace (st : OrchState) : List Event → List VoiceState
  | [] => []
  | e :: rest => (step st e).voiceState :: phaseTrace (step st e) rest

/- == Theorems ============================================================= -/

/-- Bridge from the core find characterization to FirstSuch. -/
theorem find_eq_some_iff_firstSuch {α : Type} (p : α → Bool) (l : List α) (v : α) :
    l.find? p = some v ↔ FirstSuch p l v := by
  rw [List.find?_eq_some]
  unfold FirstSuch
  constructor
  · rintro ⟨hv, as, bs, rfl, hall⟩
    exact ⟨as, bs, rfl, hv, fun x hx => by simpa using hall x hx⟩
  · rintro ⟨l1, l2, rfl, hv, hall⟩
    exact ⟨hv, l1, l2, rfl, fun x hx => by simp [hall x hx]⟩

/-- All-false on a list is the same as find? returning none. -/
theorem find_eq_none_iff_allFalse {α : Type} (p : α → Bool) (l : List α) :
    l.find? p = none ↔ ∀ x ∈ l, p x = false := by
  rw [List.find?_eq_none]
  constructor
  · intro h x hx; simpa using h x hx
  · intro h x hx; simp [h x hx]

/-- A find? success contradicts all-false. -/
theorem find_some_not_allFalse {α : Type} {p : α → Bool} {l : List α} {w : α}
    (h : l.find? p = some w) (hall : ∀ x ∈ l, p x = false) : False := by
  have hw := List.find?_some h
  rw [hall w (List.mem_of_find?_eq_some h)] at hw
  exact Bool.false_ne_true hw

/-- Claim C6: voice selection is a deterministic function of the voice list and
refines the stated preference order: the first explicitly named high-quality
voice, else the first English on-device voice, else the first English voice,
else the first voice of the list; none is selected only on the empty list. -/
theorem voice_selection_preference_order (voices : List SynthVoice) (v : SynthVoice) :
    (choosePreferredVoice voices = some v ↔ SpecVoicePreference voices v) ∧
    (choosePreferredVoice voices = none ↔ voices = []) := by
  cases h1 : voices.find? isPreferredName with
  | some w =>
    have hch : choosePreferredVoice voices = some w := by
      unfold choosePreferredVoice; rw [h1]
    rw [hch]
    constructor
    · constructor
      · intro hw
        injection hw with hw
        subst hw
        exact Or.inl ((find_eq_some_iff_firstSuch _ _ _).1 h1)
      · rintro (hf | ⟨hall, _⟩ | ⟨hall, _, _⟩ | ⟨hall, _, _, _⟩)
        · rw [← (find_eq_some_iff_firstSuch _ _ _).2 hf, h1]
        all_goals exact absurd (find_some_not_allFalse h1 hall) not_false
    · constructor
      · intro h; exact absurd h (by simp)
      · intro h; subst h; simp at h1
  | none =>
    have hall1 : ∀ x ∈ voices, isPreferredName x = false :=
      (find_eq_none_iff_allFalse _ _).1 h1
    cases h2 : voices.find? isEnglishLocal with
    | some w =>
      have hch : choosePreferredVoice voices = some w := by
        unfold choosePreferredVoice; rw [h1, h2]
      rw [hch]
      constructor
      · constructor
        · intro hw
          injection hw with hw
          subst hw
          exact Or.inr (Or.inl ⟨hall1, (find_eq_some_iff_firstSuch _ _ _).1 h2⟩)
        · rintro (hf | ⟨_, hf⟩ | ⟨_, hall2, _⟩ | ⟨_, hall2, _, _⟩)
          · exact absurd (find_some_not_allFalse ((find_eq_some_iff_firstSuch _ _ _).2 hf) hall1) not_false
          · rw [← (find_eq_some_iff_firstSuch _ _ _).2 hf, h2]
          all_goals exact absurd (find_some_not_allFalse h2 hall2) not_false
      · constructor
        · intro h; exact absurd h (by simp)
        · intro h; subst h; simp at h2
    | none =>
      have hall2 : ∀ x ∈ voices, isEnglishLocal x = false :=
        (find_eq_none_iff_allFalse _ _).1 h2
      cases h3 : voices.find? isEnglish with
      | some w =>
        have hch : choosePreferredVoice voices = some w := by
          unfold choosePreferredVoice; rw [h1, h2, h3]
        rw [hch]
        constructor
        · constructor
          · intro hw
            injection hw with hw
            subst hw
            exact Or.inr (Or.inr (Or.inl ⟨hall1, hall2, (find_eq_some_iff_firstSuch _ _ _).1 h3⟩))
          · rintro (hf | ⟨_, hf⟩ | ⟨_, _, hf⟩ | ⟨_, _, hall3, _⟩)
            · exact absurd (find_some_not_allFalse ((find_eq_some_iff_firstSuch _ _ _).2 hf) hall1) not_false
            · exact absurd (find_some_not_allFalse ((find_eq_some_iff_firstSuch _ _ _).2 hf) hall2) not_false
            · rw [← (find_eq_some_iff_firstSuch _ _ _).2 hf, h3]
            · exact absurd (find_some_not_allFalse h3 hall3) not_false
        · constructor
          · intro h; exact absurd h (by simp)
          · intro h; subst h; simp at h3
      | none =>
        have hall3 : ∀ x ∈ voices, isEnglish x = false :=
          (find_eq_none_iff_allFalse _ _).1 h3
        have hch : choosePreferredVoice voices = voices.head? := by
          unfold choosePreferredVoice; rw [h1, h2, h3]
        rw [hch]
        constructor
        · constructor
          · intro hw
            exact Or.inr (Or.inr (Or.inr ⟨hall1, hall2, hall3, hw⟩))
          · rintro (hf | ⟨_, hf⟩ | ⟨_, _, hf⟩ | ⟨_, _, _, hw⟩)
            · exact absurd (find_some_not_allFalse ((find_eq_some_iff_firstSuch _ _ _).2 hf) hall1) not_false
            · exact absurd (find_some_not_allFalse ((find_eq_some_iff_firstSuch _ _ _).2 hf) hall2) not_false
            · exact absurd (find_some_not_allFalse ((find_eq_some_iff_firstSuch _ _ _).2 hf) hall3) not_false
            · exact hw
        · exact List.head?_eq_none_iff

/-- Claim C5: the speak promise resolves on natural completion and on an
intentional interruption or cancellation, and rejects exactly when the error
code is neither interrupted nor canceled. -/
theorem speak_settlement_policy :
    speakSettle .ended = .resolved ∧
    (∀ code, speakSettle (.errorEvent code) = .rejected code ↔
      (code ≠ "interrupted" ∧ code ≠ "canceled")) ∧
    (∀ code, speakSettle (.errorEvent code) = .resolved ↔
      (code = "interrupted" ∨ code = "canceled")) := by
  refine ⟨rfl, fun code => ?_, fun code => ?_⟩ <;>
    by_cases h1 : code = "interrupted" <;>
    by_cases h2 : code = "canceled" <;>
    simp [speakSettle, h1, h2]

/-- Claim C10: for empty or whitespace-only text, speak resolves at once,
leaving the hook state untouched: no cancel call, no queued utterance, no
change to the speaking flags. -/
theorem speak_blank_text_resolves_without_effect (text : String) (st : TtsState)
    (h : jsTrim text = "") :
    speakEntry true text st = (.resolvedEmptyText, st) := by
  simp [speakEntry, h]

/-- Witness for C10 at whitespace-only input. -/
theorem speak_blank_text_resolves_without_effect_witness :
    speakEntry true "   " { isSpeaking := false, speakingRef := false, cancelCalls := 0, queued := [] }
      = (.resolvedEmptyText,
         { isSpeaking := false, speakingRef := false, cancelCalls := 0, queued := [] }) :=
  speak_blank_text_resolves_without_effect "   " _ rfl

/-- Chain step for the accepted wake times. -/
theorem wakeAcceptedTimesAux_bound (times : List Nat) :
    ∀ last : Nat,
      (∀ a ∈ wakeAcceptedTimesAux { lastWakeTime := last } times, last + WAKE_DEBOUNCE_MS ≤ a) ∧
      List.Chain' (fun a b => a + WAKE_DEBOUNCE_MS ≤ b)
        (wakeAcceptedTimesAux { lastWakeTime := last } times) := by
  induction times with
  | nil => intro last; simp [wakeAcceptedTimesAux]
  | cons t rest ih =>
    intro last
    by_cases h : t - last < WAKE_DEBOUNCE_MS
    · have : wakeAcceptedTimesAux { lastWakeTime := last } (t :: rest)
          = wakeAcceptedTimesAux { lastWakeTime := last } rest := by
        simp [wakeAcceptedTimesAux, handleWakeWordDetected, h]
      rw [this]
      exact ih last
    · have hle : last + WAKE_DEBOUNCE_MS ≤ t := by
        unfold WAKE_DEBOUNCE_MS at h ⊢
        omega
      have hstep : wakeAcceptedTimesAux { lastWakeTime := last } (t :: rest)
          = t :: wakeAcceptedTimesAux { lastWakeTime := t } rest := by
        simp [wakeAcceptedTimesAux, handleWakeWordDetected, h]
      rw [hstep]
      obtain ⟨ihb, ihc⟩ := ih t
      refine ⟨?_, ?_⟩
      · intro a ha
        rcases List.mem_cons.1 ha with rfl | ha
        · exact hle
        · have := ihb a ha; omega
      · rw [List.chain'_cons']
        exact ⟨fun b hb => ihb b (List.mem_of_mem_head? hb), ihc⟩

/-- Claim C7: a background wake-word detection within the debounce window of
the last accepted detection is discarded without invoking the notification or
the wake callback; one at or beyond the window is accepted and re-bases the
window; consequently consecutive accepted detections are always at least the
debounce interval apart. -/
theorem background_wake_debounce_policy :
    (∀ (isNative : Bool) (now : Nat) (st : WakeWordState),
      (now - st.lastWakeTime < WAKE_DEBOUNCE_MS →
        handleWakeWordDetected isNative now st =
          ({ accepted := false, notificationScheduled := false, callbackInvoked := false }, st)) ∧
      (WAKE_DEBOUNCE_MS ≤ now - st.lastWakeTime →
        handleWakeWordDetected isNative now st =
          ({ accepted := true, notificationScheduled := isNative, callbackInvoked := true },
           { lastWakeTime := now }))) ∧
    (∀ times : List Nat,
      List.Chain' (fun a b => a + WAKE_DEBOUNCE_MS ≤ b) (wakeAcceptedTimes times)) := by
  constructor
  · intro isNative now st
    constructor
    · intro h; simp [handleWakeWordDetected, h]
    · intro h; simp [handleWakeWordDetected, Nat.not_lt.2 h]
  · intro times
    exact (wakeAcceptedTimesAux_bound times 0).2

/-- Claim C8 counterexample: with bound 0 the context is the entire stored
history, not the most recent min(0, length) = 0 entries, because slice(-0) is
slice(0). -/
theorem context_window_zero_bound_cex :
    getMessagesForContext [{ role := "user", content := "hello there", timestamp := 1 }] 0
      = [{ role := "user", content := "hello there" }] ∧
    (getMessagesForContext [{ role := "user", content := "hello there", timestamp := 1 }] 0).length
      ≠ min 0 ([{ role := "user", content := "hello there", timestamp := 1 }] : List StoredMessage).length := by
  constructor
  · rfl
  · decide

/-- Claim C8 as amended: for every positive bound, the context is exactly the
most recent min(bound, length) stored entries, projected in their original
order (a suffix of the projected history). -/
theorem context_window_recent_suffix (messages : List StoredMessage) (count : Nat)
    (h : 1 ≤ count) :
    (getMessagesForContext messages count).length = min count messages.length ∧
    messages.map toContextMessage
      = (messages.map toContextMessage).take (messages.length - count)
        ++ getMessagesForContext messages count := by
  have hc : count ≠ 0 := by omega
  have hslice : jsSliceLast messages count = messages.drop (messages.length - count) := by
    simp [jsSliceLast, hc]
  constructor
  · simp [getMessagesForContext, hslice]
    omega
  · have hmap : getMessagesForContext messages count
        = (messages.map toContextMessage).drop (messages.length - count) := by
      simp [getMessagesForContext, hslice, toContextMessage, List.map_drop]
    rw [hmap, List.take_append_drop]

/-- Witness for C8 as amended, at a three-entry history and bound two. -/
theorem context_window_recent_suffix_witness :
    (getMessagesForContext
      [{ role := "user", content := "a", timestamp := 1 },
       { role := "assistant", content := "b", timestamp := 2 },
       { role := "user", content := "c", timestamp := 3 }] 2).length
      = min 2 ([{ role := "user", content := "a", timestamp := 1 },
       { role := "assistant", content := "b", timestamp := 2 },
       { role := "user", content := "c", timestamp := 3 }] : List StoredMessage).length :=
  (context_window_recent_suffix _ 2 (by omega)).1

/-- Claim C1: the code has no stale-result protection. In the concrete run a
listening session starts, a transcript enters the thinking phase with the
responder call in flight, stop-everything returns the phase to idle, and the
later settlement of the superseded responder call still flips the phase to
speaking (and speaks the stale reply): the phase observed after the stale
delivery is not idle. -/
theorem stale_responder_result_alters_phase :
    (runEvents [.faceClick, .captureFinal "what time is it", .faceClick]).voiceState
      = .idle ∧
    (runEvents [.faceClick, .captureFinal "what time is it", .faceClick,
      .responderDone (.reply "It is exactly noon.")]).voiceState = .speaking ∧
    "It is exactly noon." ∈ (runEvents [.faceClick, .captureFinal "what time is it", .faceClick,
      .responderDone (.reply "It is exactly noon.")]).spokenQueue ∧
    VoiceState.speaking ≠ VoiceState.idle := by
  refine ⟨rfl, rfl, ?_, by decide⟩
  decide

/-- Claim C2 counterexample: on responder failure from the thinking phase the
observed phases are listening, thinking, speaking — the error phase never
occurs — while the fallback message is queued for playback. -/
theorem responder_failure_never_error_phase_cex :
    phaseTrace initState [.faceClick, .captureFinal "hello there", .responderDone .failed]
      = [.listening, .thinking, .speaking] ∧
    VoiceState.error ∉
      phaseTrace initState [.faceClick, .captureFinal "hello there", .responderDone .failed] ∧
    fallbackResponse ∈
      (runEvents [.faceClick, .captureFinal "hello there", .responderDone .failed]).spokenQueue := by
  refine ⟨rfl, by decide, by decide⟩

/-- Claim C2 as amended: when the responder call rejects while the phase is
thinking (sound on, synthesis supported), the orchestrator moves directly to
speaking with the fixed fallback message queued and the processing guard
cleared — never to the error phase and never stuck in thinking — and returns
to idle when the fallback playback settles. -/
theorem responder_failure_fallback_then_idle (st : OrchState)
    (_hphase : st.voiceState = .thinking) (hpend : st.pending.isSome = true)
    (hmute : st.isMuted = false) (htts : st.ttsSupported = true) :
    (step st (.responderDone .failed)).voiceState = .speaking ∧
    (step st (.responderDone .failed)).lastResponse = fallbackResponse ∧
    fallbackResponse ∈ (step st (.responderDone .failed)).spokenQueue ∧
    (step st (.responderDone .failed)).processing = false ∧
    (step st (.responderDone .failed)).voiceState ≠ .error ∧
    (step st (.responderDone .failed)).voiceState ≠ .thinking ∧
    (step (step st (.responderDone .failed)) .playbackSettled).voiceState = .idle := by
  obtain ⟨t, ht⟩ := Option.isSome_iff_exists.1 hpend
  have hfb : (fallbackResponse == "") = false := by decide
  simp [step, responderContinuation, ht, speakResponse, hfb, hmute, htts, playbackFinally]

/-- Witness for C2 as amended, at the state reached by starting a session and
finalizing a transcript. -/
theorem responder_failure_fallback_then_idle_witness :
    (step (runEvents [.faceClick, .captureFinal "hello there"]) (.responderDone .failed)).voiceState
      = .speaking :=
  (responder_failure_fallback_then_idle
    (runEvents [.faceClick, .captureFinal "hello there"]) rfl rfl rfl rfl).1

/-- Claim C3: with the configured wake words, an utterance whose interim and
final result batches both contain the phrase invokes the wake callback twice —
once per batch — so the callback is not debounced to once per utterance. -/
theorem wake_word_fires_twice_in_one_utterance :
    utteranceWakeFireCount voiceModeWakeWords
      [[{ isFinal := false, transcript := "hey jarvis what time is it" }],
       [{ isFinal := true, transcript := "hey jarvis what time is it" }]] = 2 ∧
    ¬(utteranceWakeFireCount voiceModeWakeWords
      [[{ isFinal := false, transcript := "hey jarvis what time is it" }],
       [{ isFinal := true, transcript := "hey jarvis what time is it" }]] ≤ 1) := by
  refine ⟨by decide, by decide⟩

/-- Claim C4 counterexample: in the reachable startup window where the phase is
already speaking but the utterance has not yet started (the speaking flag is
still false), toggling mute neither stops audio output nor changes the phase:
the guard of handleMuteToggle reads the speaking flag, not the phase. -/
theorem mute_toggle_missed_cancel_window_cex :
    (runEvents [.faceClick, .captureFinal "hello there",
      .responderDone (.reply "Greetings, friend.")]).voiceState = .speaking ∧
    (runEvents [.faceClick, .captureFinal "hello there",
      .responderDone (.reply "Greetings, friend.")]).isSpeaking = false ∧
    (handleMuteToggle (runEvents [.faceClick, .captureFinal "hello there",
      .responderDone (.reply "Greetings, friend.")])).voiceState = .speaking ∧
    (handleMuteToggle (runEvents [.faceClick, .captureFinal "hello there",
      .responderDone (.reply "Greetings, friend.")])).ttsCancels
      = (runEvents [.faceClick, .captureFinal "hello there",
        .responderDone (.reply "Greetings, friend.")]).ttsCancels := by
  refine ⟨rfl, rfl, rfl, rfl⟩

/-- Claim C4 as amended: whenever the synthesis engine reports an utterance in
progress, toggling mute flips the preference, cancels the utterance at once
and synchronously forces the phase to idle. -/
theorem mute_toggle_during_audible_speech_idles (st : OrchState)
    (h : st.isSpeaking = true) :
    (handleMuteToggle st).voiceState = .idle ∧
    (handleMuteToggle st).isSpeaking = false ∧
    (handleMuteToggle st).ttsCancels = st.ttsCancels + 1 ∧
    (handleMuteToggle st).isMuted = (!st.isMuted) := by
  simp [handleMuteToggle, stopSpeaking, h]

/-- Witness for C4 as amended, at the state where the scheduled utterance has
started playing. -/
theorem mute_toggle_during_audible_speech_idles_witness :
    (handleMuteToggle (runEvents [.faceClick, .captureFinal "hello there",
      .responderDone (.reply "Greetings, friend."), .utteranceStarted])).voiceState = .idle :=
  (mute_toggle_during_audible_speech_idles
    (runEvents [.faceClick, .captureFinal "hello there",
      .responderDone (.reply "Greetings, friend."), .utteranceStarted]) rfl).1

/-- Claim C9 counterexample: the permissions phase (AwaitingPermission) is
reachable and is a sixth observable value beyond the five face states, so the
defined phase set has six members, not five. -/
theorem phase_reaches_sixth_value_cex :
    (runEvents [.permissionLost]).voiceState = .permissions ∧
    VoiceState.permissions ∉
      [VoiceState.idle, VoiceState.listening, VoiceState.thinking,
       VoiceState.speaking, VoiceState.error] := by
  refine ⟨rfl, by decide⟩

/-- Claim C9 as amended: after every event sequence the observed phase is one
of the six defined values — idle, permissions (AwaitingPermission), listening,
thinking, speaking, error — a single enumerated value, never a composite. -/
theorem phase_always_among_defined_values :
    ∀ evs : List Event, (runEvents evs).voiceState ∈
      [VoiceState.idle, VoiceState.permissions, VoiceState.listening,
       VoiceState.thinking, VoiceState.speaking, VoiceState.error] := by
  intro evs
  cases h : (runEvents evs).voiceState <;> simp
